import Mathlib

/-!
Shallow embedding of the VFD HMI drive-communication layer (`src/app.py`)
and proofs of the specification claims about it.

Modelling conventions:
* Python floats are modelled as rationals (`ℚ`); every numeric expression in
  the source that the claims touch is exact at the inputs involved.
* Raw 16-bit register values returned by pymodbus are unsigned naturals (`ℕ`).
* A Modbus client (`mclient()`) is modelled by its observable behaviour
  `MClient`: what `connect`, `read_holding_registers`, `write_register` and
  `close` do, each possibly raising an exception (`Exc.exn`).
* Each transport-level function returns its Python result (in an exception
  monad `Exc`, `.exn` meaning the call lets an exception escape) together
  with the trace of client interactions it performed (`List Ev`), so that
  claims about "what is written to a register" and "the connection is closed
  on every exit path" are statements about the trace.
-/

set_option autoImplicit false
set_option linter.unusedVariables false

namespace PiControl

/-- Result of running a piece of Python code: a value, or an escaped
exception. -/
inductive Exc (α : Type) where
  | ok : α → Exc α
  | exn : Exc α
deriving DecidableEq, Repr

/-- The configuration document `CFG` (fields the core uses). -/
structure Cfg where
  limits_hz_min : ℚ
  limits_hz_max : ℚ
  base_freq_hz : ℚ
  regs_freq_set : ℕ
  regs_freq_fb : ℕ
  regs_current_fb : ℕ
  regs_status : ℕ
  regs_fault : ℕ
  regs_cmd : ℕ

/-- A pymodbus read response: `isError()` flag and the `registers` list. -/
structure RR where
  isErr : Bool
  registers : List ℕ
deriving DecidableEq, Repr

/-- Observable behaviour of the Modbus serial client for one transaction.
`connect` returns a `Bool` (or raises); `readRR addr count` is the response
of `read_holding_registers` (`none` models a `None` response, and the call
may raise); `writeRQ addr value` likewise for `write_register` (`some b`
gives the response's `isError()` flag); `close` may raise. -/
structure MClient where
  connect : Exc Bool
  readRR : ℕ → ℕ → Exc (Option RR)
  writeRQ : ℕ → ℤ → Exc (Option Bool)
  close : Exc Unit

/-- Client interaction events, recorded in execution order. -/
inductive Ev where
  | connAttempt : Ev
  | readAttempt : ℕ → ℕ → Ev
  | writeAttempt : ℕ → ℤ → Ev
  | closeAttempt : Ev
deriving DecidableEq, Repr

/-- Python's `round` (banker's rounding, half to even) on an exact rational,
composed with `int(...)` — the value is already integral so `int` is the
identity. Used for `int(round(...))` in `pct10k_from_hz`. -/
def pyround (q : ℚ) : ℤ :=
  let f : ℤ := ⌊q⌋
  let r : ℚ := q - f
  if r < 1/2 then f
  else if 1/2 < r then f + 1
  else if f % 2 = 0 then f else f + 1

/-- `clamp_hz`: `max(lo, min(hi, float(hz)))`. -/
def clamp_hz (cfg : Cfg) (hz : ℚ) : ℚ :=
  max cfg.limits_hz_min (min cfg.limits_hz_max hz)

/-- `pct10k_from_hz`: `int(round((hz / base) * 10000.0))`. -/
def pct10k_from_hz (cfg : Cfg) (hz : ℚ) : ℤ :=
  pyround ((hz / cfg.base_freq_hz) * 10000)

/-- The decode applied to the `freq_set` register in `read_freq_cmd`:
`(pct10k / 10000.0) * float(CFG["base_freq_hz"])`. -/
def decode_pct10k (cfg : Cfg) (raw : ℤ) : ℚ :=
  ((raw : ℚ) / 10000) * cfg.base_freq_hz

/-- The decode applied in `read_current_a`:
`raw / 100.0 if raw > 200 else float(raw)`. -/
def decode_current (raw : ℕ) : ℚ :=
  if raw > 200 then (raw : ℚ) / 100 else (raw : ℚ)

/-- The decode applied in `read_status_text`:
`{1: "RUN FWD", 2: "RUN REV", 3: "STOP"}.get(raw, f"STATE {raw}")`. -/
def decode_status (raw : ℕ) : String :=
  if raw = 1 then "RUN FWD"
  else if raw = 2 then "RUN REV"
  else if raw = 3 then "STOP"
  else "STATE " ++ toString raw

/-- Python's `f"{q:.2f}"` for the (exactly representable) values the program
formats: round to centi-units half-to-even, then print with two decimals. -/
def fmt2 (q : ℚ) : String :=
  let n : ℤ := pyround (q * 100)
  let sign := if n < 0 then "-" else ""
  let m := n.natAbs
  sign ++ toString (m / 100) ++ "." ++
    (if m % 100 < 10 then "0" else "") ++ toString (m % 100)

/-- `read_regs(addr, count)`: connect, read holding registers, return the
register list; any protocol error, `None` response or exception yields
`None`; the `finally` block always runs `try: c.close() except: pass`.
Returns the Python result together with the interaction trace. -/
def read_regs (c : MClient) (addr count : ℕ) :
    Exc (Option (List ℕ)) × List Ev :=
  let body : Exc (Option (List ℕ)) × List Ev :=
    match c.connect with
    | .exn => (.ok none, [.connAttempt])
    | .ok false => (.ok none, [.connAttempt])
    | .ok true =>
      match c.readRR addr count with
      | .exn => (.ok none, [.connAttempt, .readAttempt addr count])
      | .ok none => (.ok none, [.connAttempt, .readAttempt addr count])
      | .ok (some rr) =>
        (.ok (if rr.isErr then none else some rr.registers),
         [.connAttempt, .readAttempt addr count])
  let fin : Exc Unit :=
    match c.close with
    | .exn => .ok ()
    | .ok _ => .ok ()
  (match fin with
   | .exn => .exn
   | .ok _ => body.1,
   body.2 ++ [.closeAttempt])

/-- `write_reg(addr, value)`: connect, write a single register, return
whether the write succeeded; failures and exceptions yield `False`; the
`finally` block always runs `try: c.close() except: pass`. -/
def write_reg (c : MClient) (addr : ℕ) (value : ℤ) : Exc Bool × List Ev :=
  let body : Exc Bool × List Ev :=
    match c.connect with
    | .exn => (.ok false, [.connAttempt])
    | .ok false => (.ok false, [.connAttempt])
    | .ok true =>
      match c.writeRQ addr value with
      | .exn => (.ok false, [.connAttempt, .writeAttempt addr value])
      | .ok none => (.ok false, [.connAttempt, .writeAttempt addr value])
      | .ok (some isErr) =>
        (.ok (!isErr), [.connAttempt, .writeAttempt addr value])
  let fin : Exc Unit :=
    match c.close with
    | .exn => .ok ()
    | .ok _ => .ok ()
  (match fin with
   | .exn => .exn
   | .ok _ => body.1,
   body.2 ++ [.closeAttempt])

/-- `read_freq_cmd()`: read `regs["freq_set"]`, decode as
`(regs[0] / 10000.0) * base_freq_hz`; `regs[0]` on an empty list raises. -/
def read_freq_cmd (cfg : Cfg) (c : MClient) : Exc (Option ℚ) × List Ev :=
  let (r, t) := read_regs c cfg.regs_freq_set 1
  (match r with
   | .exn => .exn
   | .ok none => .ok none
   | .ok (some []) => .exn
   | .ok (some (r0 :: _)) => .ok (some (decode_pct10k cfg (r0 : ℤ))), t)

/-- `read_freq_hz()`: read `regs["freq_fb"]`, decode as `regs[0] / 100.0`. -/
def read_freq_hz (cfg : Cfg) (c : MClient) : Exc (Option ℚ) × List Ev :=
  let (r, t) := read_regs c cfg.regs_freq_fb 1
  (match r with
   | .exn => .exn
   | .ok none => .ok none
   | .ok (some []) => .exn
   | .ok (some (r0 :: _)) => .ok (some ((r0 : ℚ) / 100)), t)

/-- `read_current_a()`: read `regs["current_fb"]`, heuristic decode. -/
def read_current_a (cfg : Cfg) (c : MClient) : Exc (Option ℚ) × List Ev :=
  let (r, t) := read_regs c cfg.regs_current_fb 1
  (match r with
   | .exn => .exn
   | .ok none => .ok none
   | .ok (some []) => .exn
   | .ok (some (r0 :: _)) => .ok (some (decode_current r0)), t)

/-- `read_status_text()`: read `regs["status"]`; `"No comm"` when the read
fails, otherwise the status decode of `regs[0]`. -/
def read_status_text (cfg : Cfg) (c : MClient) : Exc String × List Ev :=
  let (r, t) := read_regs c cfg.regs_status 1
  (match r with
   | .exn => .exn
   | .ok none => .ok "No comm"
   | .ok (some []) => .exn
   | .ok (some (r0 :: _)) => .ok (decode_status r0), t)

/-- `read_fault()`: read `regs["fault"]`; `regs[0]` passed through. -/
def read_fault (cfg : Cfg) (c : MClient) : Exc (Option ℕ) × List Ev :=
  let (r, t) := read_regs c cfg.regs_fault 1
  (match r with
   | .exn => .exn
   | .ok none => .ok none
   | .ok (some []) => .exn
   | .ok (some (r0 :: _)) => .ok (some r0), t)

/-- Sequence two traced computations: the second runs (and its trace is
recorded) only when the first did not raise. -/
def seqEv {α β : Type} (a : Exc α × List Ev) (b : Exc β × List Ev) :
    Exc β × List Ev :=
  match a with
  | (.exn, t) => (.exn, t)
  | (.ok _, t) => (b.1, t ++ b.2)

/-- The web routes of the application.  `setfreq` carries the outcome of
`float(request.form["freq"])`: `none` when parsing raises, `some hz`
otherwise.  `index` and `api_status` are the read-only pages. -/
inductive Route where
  | index : Route
  | api_status : Route
  | start : Route
  | stop : Route
  | rst : Route
  | setfreq : Option ℚ → Route

/-- Run one route handler against client behaviour `c`.  The result is the
flash message the handler produces (`none` for the read-only pages), inside
`Exc` because an unhandled exception in a handler would escape it, paired
with the trace of all Modbus client interactions the handler performed.
Reads happen in the source's evaluation order. -/
def run_route (rt : Route) (cfg : Cfg) (c : MClient) :
    Exc (Option String) × List Ev :=
  match rt with
  | .index =>
    let r := seqEv (read_freq_cmd cfg c) (seqEv (read_freq_hz cfg c)
      (seqEv (read_current_a cfg c) (seqEv (read_status_text cfg c)
        (read_fault cfg c))))
    (match r.1 with | .exn => .exn | .ok _ => .ok none, r.2)
  | .api_status =>
    let r := seqEv (read_status_text cfg c) (seqEv (read_fault cfg c)
      (seqEv (read_freq_cmd cfg c) (seqEv (read_freq_hz cfg c)
        (read_current_a cfg c))))
    (match r.1 with | .exn => .exn | .ok _ => .ok none, r.2)
  | .start =>
    let (r, t) := write_reg c cfg.regs_cmd 1
    (match r with
     | .exn => .exn
     | .ok ok => .ok (some ("START " ++ (if ok then "OK" else "FAILED"))), t)
  | .stop =>
    let (r, t) := write_reg c cfg.regs_cmd 6
    (match r with
     | .exn => .exn
     | .ok ok => .ok (some ("STOP " ++ (if ok then "OK" else "FAILED"))), t)
  | .rst =>
    let (r, t) := write_reg c cfg.regs_cmd 7
    (match r with
     | .exn => .exn
     | .ok ok => .ok (some ("RESET " ++ (if ok then "OK" else "FAILED"))), t)
  | .setfreq none => (.ok (some "Invalid frequency"), [])
  | .setfreq (some hzReq) =>
    let hz := clamp_hz cfg hzReq
    let value := pct10k_from_hz cfg hz
    let (r, t) := write_reg c cfg.regs_freq_set value
    (match r with
     | .exn => .exn
     | .ok ok =>
       .ok (some (if ok then
         "Set " ++ fmt2 hz ++ " Hz (cmd=" ++ toString value ++ ")"
       else "Write failed")), t)

/-- Concrete configuration used by the scenario claims: limits 25..50 Hz,
base frequency 50 Hz, distinct register addresses. -/
def cfgW : Cfg :=
  { limits_hz_min := 25, limits_hz_max := 50, base_freq_hz := 50
    regs_freq_set := 1, regs_freq_fb := 2, regs_current_fb := 3
    regs_status := 4, regs_fault := 5, regs_cmd := 6 }

/-- A healthy client: connect succeeds, every read returns register 32768,
every write is acknowledged without error. -/
def cW : MClient :=
  { connect := .ok true
    readRR := fun _ _ => .ok (some { isErr := false, registers := [32768] })
    writeRQ := fun _ _ => .ok (some false)
    close := .ok () }

/-- A client whose connection cannot be opened. -/
def cFail : MClient :=
  { connect := .ok false
    readRR := fun _ _ => .ok (some { isErr := false, registers := [0] })
    writeRQ := fun _ _ => .ok (some false)
    close := .ok () }

theorem pyround_sub_le (q : ℚ) : |((pyround q : ℤ) : ℚ) - q| ≤ 1/2 := by
  have h0 : (0:ℚ) ≤ q - ⌊q⌋ := by
    have := Int.floor_le q; linarith
  have h1 : q - ⌊q⌋ < 1 := by
    have := Int.lt_floor_add_one q; linarith
  unfold pyround
  by_cases hlt : q - (⌊q⌋ : ℚ) < 1/2
  · simp only [hlt, if_true]
    rw [abs_le]; constructor <;> linarith
  · by_cases hgt : (1:ℚ)/2 < q - (⌊q⌋ : ℚ)
    · simp only [hlt, hgt, if_false, if_true]
      push_cast
      rw [abs_le]; constructor <;> linarith
    · have heq : q - (⌊q⌋ : ℚ) = 1/2 := le_antisymm (not_lt.mp hgt) (not_lt.mp hlt)
      by_cases hpar : (⌊q⌋ : ℤ) % 2 = 0
      · simp only [hlt, hgt, hpar, if_false, if_true]
        rw [abs_le]; constructor <;> linarith
      · simp only [hlt, hgt, hpar, if_false]
        push_cast
        rw [abs_le]; constructor <;> linarith

theorem read_regs_trace (c : MClient) (a n : ℕ) :
    (read_regs c a n).2 = [Ev.connAttempt, Ev.closeAttempt] ∨
    (read_regs c a n).2 = [Ev.connAttempt, Ev.readAttempt a n, Ev.closeAttempt] := by
  unfold read_regs
  rcases c.connect with b | _
  · rcases b
    · simp
    · rcases c.readRR a n with rr | _
      · rcases rr with rr | _
        · simp
        · simp
      · simp
  · simp


theorem write_reg_trace (c : MClient) (a : ℕ) (v : ℤ) :
    (write_reg c a v).2 = [Ev.connAttempt, Ev.closeAttempt] ∨
    (write_reg c a v).2 = [Ev.connAttempt, Ev.writeAttempt a v, Ev.closeAttempt] := by
  unfold write_reg
  rcases c.connect with b | _
  · rcases b
    · simp
    · rcases c.writeRQ a v with rq | _
      · rcases rq with e | _
        · simp
        · simp
      · simp
  · simp

theorem mem_read_regs_trace (c : MClient) (a n : ℕ) (e : Ev)
    (h : e ∈ (read_regs c a n).2) :
    e = Ev.connAttempt ∨ e = Ev.readAttempt a n ∨ e = Ev.closeAttempt := by
  rcases read_regs_trace c a n with ht | ht <;> rw [ht] at h <;>
    simp only [List.mem_cons, List.mem_singleton, List.not_mem_nil, or_false] at h <;>
    tauto

theorem mem_write_reg_trace (c : MClient) (a : ℕ) (v : ℤ) (e : Ev)
    (h : e ∈ (write_reg c a v).2) :
    e = Ev.connAttempt ∨ e = Ev.writeAttempt a v ∨ e = Ev.closeAttempt := by
  rcases write_reg_trace c a v with ht | ht <;> rw [ht] at h <;>
    simp only [List.mem_cons, List.mem_singleton, List.not_mem_nil, or_false] at h <;>
    tauto

theorem read_regs_ok (c : MClient) (a n : ℕ) :
    ∃ v, (read_regs c a n).1 = Exc.ok v := by
  unfold read_regs
  rcases c.close with u | _
  · rcases c.connect with b | _
    · rcases b
      · simp
      · rcases c.readRR a n with rr | _
        · rcases rr with rr | _
          · simp
          · simp
        · simp
    · simp
  · rcases c.connect with b | _
    · rcases b
      · simp
      · rcases c.readRR a n with rr | _
        · rcases rr with rr | _
          · simp
          · simp
        · simp
    · simp

theorem write_reg_ok (c : MClient) (a : ℕ) (v : ℤ) :
    ∃ b, (write_reg c a v).1 = Exc.ok b := by
  unfold write_reg
  rcases c.close with u | _
  · rcases c.connect with b | _
    · rcases b
      · simp
      · rcases c.writeRQ a v with rq | _
        · rcases rq with e | _
          · simp
          · simp
        · simp
    · simp
  · rcases c.connect with b | _
    · rcases b
      · simp
      · rcases c.writeRQ a v with rq | _
        · rcases rq with e | _
          · simp
          · simp
        · simp
    · simp

theorem read_regs_close_irrel (c : MClient) (o : Exc Unit) (a n : ℕ) :
    read_regs { c with close := o } a n = read_regs c a n := by
  unfold read_regs
  rcases o with u | _ <;> rcases c.close with u2 | _ <;> rfl

theorem write_reg_close_irrel (c : MClient) (o : Exc Unit) (a : ℕ) (v : ℤ) :
    write_reg { c with close := o } a v = write_reg c a v := by
  unfold write_reg
  rcases o with u | _ <;> rcases c.close with u2 | _ <;> rfl

theorem read_regs_getLast (c : MClient) (a n : ℕ) :
    (read_regs c a n).2.getLast? = some Ev.closeAttempt := by
  rcases read_regs_trace c a n with ht | ht <;> rw [ht] <;> rfl

theorem write_reg_getLast (c : MClient) (a : ℕ) (v : ℤ) :
    (write_reg c a v).2.getLast? = some Ev.closeAttempt := by
  rcases write_reg_trace c a v with ht | ht <;> rw [ht] <;> rfl


theorem mem_seqEv {α β : Type} (a : Exc α × List Ev) (b : Exc β × List Ev)
    (e : Ev) (h : e ∈ (seqEv a b).2) : e ∈ a.2 ∨ e ∈ b.2 := by
  rcases a with ⟨ra, ta⟩
  rcases ra with x | _
  · simp only [seqEv, List.mem_append] at h
    exact h
  · simp only [seqEv] at h
    exact Or.inl h

theorem read_freq_cmd_trace (cfg : Cfg) (c : MClient) :
    (read_freq_cmd cfg c).2 = (read_regs c cfg.regs_freq_set 1).2 := by
  rcases hrw : read_regs c cfg.regs_freq_set 1 with ⟨r, t⟩
  simp [read_freq_cmd, hrw]

theorem read_freq_hz_trace (cfg : Cfg) (c : MClient) :
    (read_freq_hz cfg c).2 = (read_regs c cfg.regs_freq_fb 1).2 := by
  rcases hrw : read_regs c cfg.regs_freq_fb 1 with ⟨r, t⟩
  simp [read_freq_hz, hrw]

theorem read_current_a_trace (cfg : Cfg) (c : MClient) :
    (read_current_a cfg c).2 = (read_regs c cfg.regs_current_fb 1).2 := by
  rcases hrw : read_regs c cfg.regs_current_fb 1 with ⟨r, t⟩
  simp [read_current_a, hrw]

theorem read_status_text_trace (cfg : Cfg) (c : MClient) :
    (read_status_text cfg c).2 = (read_regs c cfg.regs_status 1).2 := by
  rcases hrw : read_regs c cfg.regs_status 1 with ⟨r, t⟩
  simp [read_status_text, hrw]

theorem read_fault_trace (cfg : Cfg) (c : MClient) :
    (read_fault cfg c).2 = (read_regs c cfg.regs_fault 1).2 := by
  rcases hrw : read_regs c cfg.regs_fault 1 with ⟨r, t⟩
  simp [read_fault, hrw]

theorem no_write_in_reads (cfg : Cfg) (c : MClient) (a : ℕ) (v : ℤ)
    (rt : Route) (hro : rt = Route.index ∨ rt = Route.api_status)
    (h : Ev.writeAttempt a v ∈ (run_route rt cfg c).2) : False := by
  have hr1 := mem_read_regs_trace c cfg.regs_freq_set 1 (Ev.writeAttempt a v)
  have hr2 := mem_read_regs_trace c cfg.regs_freq_fb 1 (Ev.writeAttempt a v)
  have hr3 := mem_read_regs_trace c cfg.regs_current_fb 1 (Ev.writeAttempt a v)
  have hr4 := mem_read_regs_trace c cfg.regs_status 1 (Ev.writeAttempt a v)
  have hr5 := mem_read_regs_trace c cfg.regs_fault 1 (Ev.writeAttempt a v)
  rcases hro with hro | hro <;> subst hro <;>
  · simp only [run_route] at h
    rcases mem_seqEv _ _ _ h with h1 | h1
    rotate_left
    rcases mem_seqEv _ _ _ h1 with h2 | h2
    rotate_left
    rcases mem_seqEv _ _ _ h2 with h3 | h3
    rotate_left
    rcases mem_seqEv _ _ _ h3 with h4 | h4
    all_goals first
      | (rw [read_freq_cmd_trace] at *; simp_all)
      | (rw [read_freq_hz_trace] at *; simp_all)
      | (rw [read_current_a_trace] at *; simp_all)
      | (rw [read_status_text_trace] at *; simp_all)
      | (rw [read_fault_trace] at *; simp_all)


theorem run_route_start_trace (cfg : Cfg) (c : MClient) :
    (run_route Route.start cfg c).2 = (write_reg c cfg.regs_cmd 1).2 := by
  rcases hrw : write_reg c cfg.regs_cmd 1 with ⟨r, t⟩
  simp [run_route, hrw]

theorem run_route_stop_trace (cfg : Cfg) (c : MClient) :
    (run_route Route.stop cfg c).2 = (write_reg c cfg.regs_cmd 6).2 := by
  rcases hrw : write_reg c cfg.regs_cmd 6 with ⟨r, t⟩
  simp [run_route, hrw]

theorem run_route_rst_trace (cfg : Cfg) (c : MClient) :
    (run_route Route.rst cfg c).2 = (write_reg c cfg.regs_cmd 7).2 := by
  rcases hrw : write_reg c cfg.regs_cmd 7 with ⟨r, t⟩
  simp [run_route, hrw]

theorem run_route_setfreq_trace (cfg : Cfg) (c : MClient) (hz : ℚ) :
    (run_route (Route.setfreq (some hz)) cfg c).2 =
    (write_reg c cfg.regs_freq_set (pct10k_from_hz cfg (clamp_hz cfg hz))).2 := by
  rcases hrw : write_reg c cfg.regs_freq_set (pct10k_from_hz cfg (clamp_hz cfg hz))
    with ⟨r, t⟩
  simp [run_route, hrw]

/-- C3: every value the program ever writes to the command register is the
fixed code of one of Start (1), Stop (6), Reset (7); across all routes no
command-register write with any other integer is possible. -/
theorem command_register_writes_closed (cfg : Cfg) (c : MClient) (rt : Route)
    (a : ℕ) (v : ℤ) (hdistinct : cfg.regs_cmd ≠ cfg.regs_freq_set)
    (hmem : Ev.writeAttempt a v ∈ (run_route rt cfg c).2)
    (hcmd : a = cfg.regs_cmd) :
    v = 1 ∨ v = 6 ∨ v = 7 := by
  cases rt with
  | index => exact absurd hmem (fun h => no_write_in_reads cfg c a v _ (Or.inl rfl) h)
  | api_status => exact absurd hmem (fun h => no_write_in_reads cfg c a v _ (Or.inr rfl) h)
  | start =>
    rw [run_route_start_trace] at hmem
    rcases mem_write_reg_trace c cfg.regs_cmd 1 _ hmem with h | h | h
    · exact absurd h (by simp)
    · left; injection h with h1 h2
    · exact absurd h (by simp)
  | stop =>
    rw [run_route_stop_trace] at hmem
    rcases mem_write_reg_trace c cfg.regs_cmd 6 _ hmem with h | h | h
    · exact absurd h (by simp)
    · right; left; injection h with h1 h2
    · exact absurd h (by simp)
  | rst =>
    rw [run_route_rst_trace] at hmem
    rcases mem_write_reg_trace c cfg.regs_cmd 7 _ hmem with h | h | h
    · exact absurd h (by simp)
    · right; right; injection h with h1 h2
    · exact absurd h (by simp)
  | setfreq p =>
    cases p with
    | none => simp [run_route] at hmem
    | some hz =>
      rw [run_route_setfreq_trace] at hmem
      rcases mem_write_reg_trace c cfg.regs_freq_set
          (pct10k_from_hz cfg (clamp_hz cfg hz)) _ hmem with h | h | h
      · exact absurd h (by simp)
      · injection h with h1 h2
        exact absurd (hcmd ▸ h1) hdistinct
      · exact absurd h (by simp)


/-- C6: in both transport operations the close of the connection is the
last client interaction on every exit path, the result never depends on
whether the close itself fails, and no exception escapes either
operation. -/
theorem transport_always_closes (c : MClient) (o : Exc Unit)
    (addr count : ℕ) (value : ℤ) :
    ((read_regs c addr count).2.getLast? = some Ev.closeAttempt ∧
     (write_reg c addr value).2.getLast? = some Ev.closeAttempt) ∧
    ((read_regs { c with close := o } addr count).1 = (read_regs c addr count).1 ∧
     (write_reg { c with close := o } addr value).1 = (write_reg c addr value).1) ∧
    ((∃ v, (read_regs c addr count).1 = Exc.ok v) ∧
     (∃ b, (write_reg c addr value).1 = Exc.ok b)) :=
  ⟨⟨read_regs_getLast c addr count, write_reg_getLast c addr value⟩,
   ⟨by rw [read_regs_close_irrel], by rw [write_reg_close_irrel]⟩,
   ⟨read_regs_ok c addr count, write_reg_ok c addr value⟩⟩

/-- C4: when the transport fails to open the connection, every read
operation returns an absent value, `read_status_text` returns exactly
`"No comm"`, the command write returns `False`, and no exception escapes
any of these operations. -/
theorem no_comm_behaviour (cfg : Cfg) (c : MClient)
    (h : c.connect = Exc.ok false) :
    (read_freq_cmd cfg c).1 = Exc.ok none ∧
    (read_freq_hz cfg c).1 = Exc.ok none ∧
    (read_current_a cfg c).1 = Exc.ok none ∧
    (read_fault cfg c).1 = Exc.ok none ∧
    (read_status_text cfg c).1 = Exc.ok "No comm" ∧
    (write_reg c cfg.regs_cmd 1).1 = Exc.ok false := by
  have hr : ∀ a n, read_regs c a n =
      (Exc.ok none, [Ev.connAttempt, Ev.closeAttempt]) := by
    intro a n
    unfold read_regs
    rw [h]
    rcases c.close with u | _ <;> rfl
  refine ⟨?_, ?_, ?_, ?_, ?_, ?_⟩
  · simp [read_freq_cmd, hr]
  · simp [read_freq_hz, hr]
  · simp [read_current_a, hr]
  · simp [read_fault, hr]
  · simp [read_status_text, hr]
  · unfold write_reg
    rw [h]
    rcases c.close with u | _ <;> rfl

/-- C2: `clamp_hz` returns the lower limit below the band, the upper limit
above the band, and is the identity inside the band. -/
theorem clamp_hz_spec (cfg : Cfg) (hz : ℚ)
    (hle : cfg.limits_hz_min ≤ cfg.limits_hz_max) :
    (hz < cfg.limits_hz_min → clamp_hz cfg hz = cfg.limits_hz_min) ∧
    (cfg.limits_hz_max < hz → clamp_hz cfg hz = cfg.limits_hz_max) ∧
    (cfg.limits_hz_min ≤ hz → hz ≤ cfg.limits_hz_max → clamp_hz cfg hz = hz) := by
  unfold clamp_hz
  refine ⟨?_, ?_, ?_⟩
  · intro hlt
    rw [min_eq_right (le_of_lt (lt_of_lt_of_le hlt hle))]
    exact max_eq_left (le_of_lt hlt)
  · intro hgt
    rw [min_eq_left (le_of_lt hgt)]
    exact max_eq_right hle
  · intro h1 h2
    rw [min_eq_right h2]
    exact max_eq_right h1

/-- C7: the current-feedback decode switches scale strictly above raw 200:
200 decodes to 200 whole amperes, 201 to 2.01 A, and in general raw values
above 200 decode as raw/100 while raw values at most 200 decode as whole
amperes. -/
theorem decode_current_spec (raw : ℕ) :
    decode_current 200 = 200 ∧
    decode_current 201 = 201/100 ∧
    (200 < raw → decode_current raw = (raw : ℚ) / 100) ∧
    (raw ≤ 200 → decode_current raw = (raw : ℚ)) := by
  refine ⟨by norm_num [decode_current], by norm_num [decode_current], ?_, ?_⟩
  · intro h
    simp [decode_current, h]
  · intro h
    simp [decode_current, Nat.not_lt.mpr h]

/-- C8: the status decode is total: 1, 2, 3 map to "RUN FWD", "RUN REV",
"STOP", and every other raw value maps to "STATE {raw}". -/
theorem decode_status_spec (raw : ℕ) :
    decode_status 1 = "RUN FWD" ∧
    decode_status 2 = "RUN REV" ∧
    decode_status 3 = "STOP" ∧
    decode_status 9 = "STATE 9" ∧
    (raw ≠ 1 → raw ≠ 2 → raw ≠ 3 → decode_status raw = "STATE " ++ toString raw) := by
  refine ⟨rfl, rfl, rfl, rfl, ?_⟩
  intro h1 h2 h3
  simp [decode_status, h1, h2, h3]


/-- C5: decoding the encoded frequency command recovers the commanded
frequency up to one part in 10000 of the base frequency, for frequencies
within the commandable band. -/
theorem freq_roundtrip (cfg : Cfg) (hz : ℚ) (hbase : 0 < cfg.base_freq_hz)
    (h1 : cfg.limits_hz_min ≤ hz) (h2 : hz ≤ cfg.limits_hz_max) :
    |decode_pct10k cfg (pct10k_from_hz cfg hz) - hz| ≤ cfg.base_freq_hz / 10000 := by
  have hb0 : cfg.base_freq_hz ≠ 0 := ne_of_gt hbase
  set base := cfg.base_freq_hz with hbdef
  set x : ℚ := hz / base * 10000 with hxdef
  have herr := pyround_sub_le x
  have hx : x * base / 10000 = hz := by
    field_simp [hxdef]
  unfold decode_pct10k pct10k_from_hz
  have key : ((pyround x : ℤ) : ℚ) / 10000 * base - hz =
      (((pyround x : ℤ) : ℚ) - x) * base / 10000 := by
    rw [← hx]; ring
  rw [← hxdef, key, abs_div, abs_mul]
  have h10 : |(10000 : ℚ)| = 10000 := by norm_num
  rw [h10, abs_of_pos hbase]
  have hmul : |((pyround x : ℤ) : ℚ) - x| * base ≤ base := by
    nlinarith [abs_nonneg (((pyround x : ℤ) : ℚ) - x)]
  linarith


theorem write_reg_succ_trace (c : MClient) (a : ℕ) (v : ℤ)
    (hw : (write_reg c a v).1 = Exc.ok true) :
    (write_reg c a v).2 = [Ev.connAttempt, Ev.writeAttempt a v, Ev.closeAttempt] := by
  rcases hc : c.connect with b | _
  · rcases b
    · exfalso
      revert hw
      unfold write_reg
      rw [hc]
      rcases c.close with u | _ <;> simp
    · unfold write_reg
      rw [hc]
      rcases c.writeRQ a v with rq | _
      · rcases rq with _ | e <;> rcases c.close with u | _ <;> rfl
      · rcases c.close with u | _ <;> rfl
  · exfalso
    revert hw
    unfold write_reg
    rw [hc]
    rcases c.close with u | _ <;> simp

theorem pyround_5000 : pyround (50 * 100 : ℚ) = 5000 := by
  unfold pyround
  norm_num

theorem fmt2_50 : fmt2 50 = "50.00" := by
  unfold fmt2
  rw [show ((50 : ℚ) * 100) = (50 * 100 : ℚ) by norm_num, pyround_5000]
  rfl

/-- C1: with limits 25..50 Hz and base 50 Hz, a set-frequency request of
60 Hz clamps to 50 Hz, encodes to 10000, issues the register write with raw
value 10000, and (the write succeeding) reports "Set 50.00 Hz (cmd=10000)",
the effective frequency together with the raw value written. -/
theorem setfreq_scenario (cfg : Cfg) (c : MClient)
    (hmin : cfg.limits_hz_min = 25) (hmax : cfg.limits_hz_max = 50)
    (hbase : cfg.base_freq_hz = 50)
    (hw : (write_reg c cfg.regs_freq_set 10000).1 = Exc.ok true) :
    clamp_hz cfg 60 = 50 ∧
    pct10k_from_hz cfg 50 = 10000 ∧
    Ev.writeAttempt cfg.regs_freq_set 10000 ∈
      (run_route (Route.setfreq (some 60)) cfg c).2 ∧
    (run_route (Route.setfreq (some 60)) cfg c).1 =
      Exc.ok (some "Set 50.00 Hz (cmd=10000)") := by
  have hclamp : clamp_hz cfg 60 = 50 := by
    unfold clamp_hz
    rw [hmin, hmax]
    norm_num
  have henc : pct10k_from_hz cfg 50 = 10000 := by
    unfold pct10k_from_hz pyround
    rw [hbase]
    norm_num
  refine ⟨hclamp, henc, ?_, ?_⟩
  · rw [run_route_setfreq_trace, hclamp, henc, write_reg_succ_trace c _ _ hw]
    simp
  · rcases hrw : write_reg c cfg.regs_freq_set 10000 with ⟨r, t⟩
    rw [hrw] at hw
    simp only at hw
    simp [run_route, hclamp, henc, hrw, hw, fmt2_50]
    rfl


/-- C9 (amended): a set-frequency request whose payload fails to parse is
rejected with the flash message "Invalid frequency" and performs no client
interaction at all: no clamping, encoding or register write reaches the
device. -/
theorem setfreq_parse_failure (cfg : Cfg) (c : MClient) :
    run_route (Route.setfreq none) cfg c =
      (Exc.ok (some "Invalid frequency"), []) := rfl

/-- C9 counterexample: the rejection message is "Invalid frequency", not
the lower-case "invalid frequency" stated in the claim. -/
theorem setfreq_parse_failure_msg_case :
    (run_route (Route.setfreq none) cfgW cW).1 =
      Exc.ok (some "Invalid frequency") ∧
    (run_route (Route.setfreq none) cfgW cW).1 ≠
      Exc.ok (some "invalid frequency") := by
  exact ⟨rfl, by decide⟩

/-- C10 (amended): the commanded-frequency decode is unsigned: a register
value `raw ≤ 65535` decodes to the non-negative frequency
`raw/10000 * base_freq_hz`, and values at or above 32768 decode to at least
3.2768 times the base frequency instead of to negative frequencies. -/
theorem freq_cmd_unsigned (cfg : Cfg) (c : MClient) (raw : ℕ)
    (hbase : 0 < cfg.base_freq_hz) (hraw : raw ≤ 65535)
    (hconn : c.connect = Exc.ok true)
    (hrr : c.readRR cfg.regs_freq_set 1 =
      Exc.ok (some { isErr := false, registers := [raw] })) :
    (read_freq_cmd cfg c).1 = Exc.ok (some ((raw : ℚ) / 10000 * cfg.base_freq_hz)) ∧
    0 ≤ (raw : ℚ) / 10000 * cfg.base_freq_hz ∧
    (32768 ≤ raw →
      (32768 / 10000 : ℚ) * cfg.base_freq_hz ≤ (raw : ℚ) / 10000 * cfg.base_freq_hz) := by
  refine ⟨?_, ?_, ?_⟩
  · have hr : read_regs c cfg.regs_freq_set 1 =
        (Exc.ok (some [raw]),
         [Ev.connAttempt, Ev.readAttempt cfg.regs_freq_set 1, Ev.closeAttempt]) := by
      unfold read_regs
      rw [hconn, hrr]
      rcases c.close with u | _ <;> rfl
    simp [read_freq_cmd, hr, decode_pct10k]
  · positivity
  · intro h
    gcongr
    exact_mod_cast h

/-- C10 counterexample: at register value 32768 (with base frequency
50 Hz) the decoded frequency equals 3.2768 times the base frequency, so it
is not strictly above it. -/
theorem freq_cmd_boundary_32768 :
    (read_freq_cmd cfgW cW).1 = Exc.ok (some ((32768 : ℚ) / 10000 * 50)) ∧
    ¬((32768 / 10000 : ℚ) * 50 < (32768 : ℚ) / 10000 * 50) := by
  constructor
  · have h0 : read_freq_cmd cfgW cW =
        (Exc.ok (some (decode_pct10k cfgW ((32768 : ℕ) : ℤ))),
         [Ev.connAttempt, Ev.readAttempt 1 1, Ev.closeAttempt]) := rfl
    rw [h0]
    norm_num [decode_pct10k, cfgW]
  · norm_num

theorem setfreq_scenario_witness :
    cfgW.limits_hz_min = 25 ∧ cfgW.limits_hz_max = 50 ∧ cfgW.base_freq_hz = 50 ∧
    (write_reg cW cfgW.regs_freq_set 10000).1 = Exc.ok true ∧
    (run_route (Route.setfreq (some 60)) cfgW cW).1 =
      Exc.ok (some "Set 50.00 Hz (cmd=10000)") :=
  ⟨rfl, rfl, rfl, rfl, (setfreq_scenario cfgW cW rfl rfl rfl rfl).2.2.2⟩

theorem clamp_hz_spec_witness :
    cfgW.limits_hz_min ≤ cfgW.limits_hz_max ∧
    cfgW.limits_hz_max < 60 ∧ clamp_hz cfgW 60 = cfgW.limits_hz_max :=
  ⟨by norm_num [cfgW], by norm_num [cfgW],
   (clamp_hz_spec cfgW 60 (by norm_num [cfgW])).2.1 (by norm_num [cfgW])⟩

theorem command_register_writes_closed_witness :
    cfgW.regs_cmd ≠ cfgW.regs_freq_set ∧
    Ev.writeAttempt 6 1 ∈ (run_route Route.start cfgW cW).2 ∧
    (6 : ℕ) = cfgW.regs_cmd ∧
    ((1 : ℤ) = 1 ∨ (1 : ℤ) = 6 ∨ (1 : ℤ) = 7) :=
  ⟨by decide, by decide, rfl,
   command_register_writes_closed cfgW cW Route.start 6 1 (by decide) (by decide) rfl⟩

theorem no_comm_behaviour_witness :
    cFail.connect = Exc.ok false ∧
    (read_status_text cfgW cFail).1 = Exc.ok "No comm" :=
  ⟨rfl, (no_comm_behaviour cfgW cFail rfl).2.2.2.2.1⟩

theorem freq_roundtrip_witness :
    (0 : ℚ) < cfgW.base_freq_hz ∧
    cfgW.limits_hz_min ≤ 30 ∧ (30 : ℚ) ≤ cfgW.limits_hz_max ∧
    |decode_pct10k cfgW (pct10k_from_hz cfgW 30) - 30| ≤ cfgW.base_freq_hz / 10000 :=
  ⟨by norm_num [cfgW], by norm_num [cfgW], by norm_num [cfgW],
   freq_roundtrip cfgW 30 (by norm_num [cfgW]) (by norm_num [cfgW]) (by norm_num [cfgW])⟩

theorem decode_current_spec_witness :
    (200 : ℕ) < 300 ∧ decode_current 300 = (300 : ℚ) / 100 :=
  ⟨by norm_num, (decode_current_spec 300).2.2.1 (by norm_num)⟩

theorem decode_status_spec_witness :
    (9 : ℕ) ≠ 1 ∧ (9 : ℕ) ≠ 2 ∧ (9 : ℕ) ≠ 3 ∧
    decode_status 9 = "STATE " ++ toString (9 : ℕ) :=
  ⟨by decide, by decide, by decide,
   (decode_status_spec 9).2.2.2.2 (by decide) (by decide) (by decide)⟩

theorem freq_cmd_unsigned_witness :
    (0 : ℚ) < cfgW.base_freq_hz ∧ (32768 : ℕ) ≤ 65535 ∧
    cW.connect = Exc.ok true ∧
    cW.readRR cfgW.regs_freq_set 1 =
      Exc.ok (some { isErr := false, registers := [32768] }) ∧
    (32768 : ℕ) ≤ 32768 ∧
    (32768 / 10000 : ℚ) * cfgW.base_freq_hz ≤
      ((32768 : ℕ) : ℚ) / 10000 * cfgW.base_freq_hz :=
  ⟨by norm_num [cfgW], by norm_num, rfl, rfl, le_refl _,
   (freq_cmd_unsigned cfgW cW 32768 (by norm_num [cfgW]) (by norm_num) rfl rfl).2.2
     (by norm_num)⟩

end PiControl
